import Mathlib

/-!
A verification development for the internal PKI subsystem and its mTLS/MFA
authentication pipeline: a shallow embedding of the certificate store
(`apps/pki/models.py`), the CA manager (`apps/pki/ca_manager.py`), the CRL
building commands (`apps/pki/management/commands/update_crl.py`,
`export_crl.py`), the certificate-issuance API view (`apps/pki/api/views.py`),
the mTLS middleware and backend (`apps/authentication/middleware_mtls.py`,
`apps/authentication/backends/mtls.py`) and the MFA setup endpoint
(`apps/authentication/api/mfa_setup.py`), together with theorems about the
embedded operations.

Conventions of the embedding:
* Timestamps are integers counted in days; a duration of `n` days is the
  integer `n` (`datetime.timedelta(days=n)` becomes `+ n`).
* Asymmetric key pairs are symbolic: a key pair is identified by a natural
  number, and the public half of key `k` is represented by `k` itself.  A
  signature records which private key signed which to-be-signed content and
  verifies against exactly that key and content (RSA/SHA-256 signatures are
  assumed unforgeable and deterministic).
* PEM serialization is treated as the identity: a stored "PEM" field holds
  the structured certificate itself, since every consumer in the source
  immediately parses the PEM it loads.
-/

namespace PkiMtls

/-! ### String helpers

Executable counterparts of the Python string operations the source uses,
defined over `String.data` so that they reduce inside the kernel. -/

/-- Python `s.startswith(p)`. -/
def strStartsWith (s p : String) : Bool := p.data.isPrefixOf s.data

/-- Numeric value of one hexadecimal digit, if any. -/
def hexDigitVal? (ch : Char) : Option Nat :=
  if '0' ≤ ch ∧ ch ≤ '9' then some (ch.toNat - '0'.toNat)
  else if 'a' ≤ ch ∧ ch ≤ 'f' then some (ch.toNat - 'a'.toNat + 10)
  else if 'A' ≤ ch ∧ ch ≤ 'F' then some (ch.toNat - 'A'.toNat + 10)
  else none

def hexListVal? : List Char → Option Nat → Option Nat
  | [], acc => acc
  | ch :: rest, acc =>
      hexListVal? rest (acc.bind fun a => (hexDigitVal? ch).map fun d => a * 16 + d)

/-- Python `int(s, 16)` on the serial header, restricted to plain strings of
hexadecimal digits (`int(·, 16)` additionally tolerates surrounding
whitespace, a sign and a `0x` marker; nginx's `$ssl_client_serial` is a bare
hex-digit string, so those alternatives never arise here).  `none` models the
raised `ValueError`. -/
def hexToNat? (s : String) : Option Nat :=
  if s.data.isEmpty then none else hexListVal? s.data (some 0)

/-- Numeric value of one decimal digit, if any. -/
def decDigitVal? (ch : Char) : Option Nat :=
  if '0' ≤ ch ∧ ch ≤ '9' then some (ch.toNat - '0'.toNat) else none

def decListVal? : List Char → Option Nat → Option Nat
  | [], acc => acc
  | ch :: rest, acc =>
      decListVal? rest (acc.bind fun a => (decDigitVal? ch).map fun d => a * 10 + d)

/-- Python `int(s)` on stored serial-number strings, restricted to plain
strings of decimal digits (which is what issuance writes: `str(serial)`).
`none` models the raised `ValueError`. -/
def strToInt? (s : String) : Option Int :=
  if s.data.isEmpty then none
  else (decListVal? s.data (some 0)).map Int.ofNat

/-! ### Symbolic public-key cryptography -/

/-- A key pair, identified symbolically; the public half of key `k` is `k`. -/
abbrev KeyId := Nat

/-- The to-be-signed content of an X.509 certificate — the fields of the
`cryptography.x509.CertificateBuilder` that the source reads back. -/
structure TBS where
  subject : String
  issuer : String
  pubKey : KeyId
  serial : Int
  notBefore : Int
  notAfter : Int
  isCA : Bool
deriving DecidableEq, Repr

/-- A signature: which private key signed which content. -/
structure Sig where
  signer : KeyId
  payload : TBS
deriving DecidableEq, Repr

/-- `builder.sign(private_key, SHA256())`. -/
def signTBS (k : KeyId) (t : TBS) : Sig := ⟨k, t⟩

/-- `public_key.verify(signature, tbs_bytes, …)`: succeeds exactly when the
signature was produced by the private key matching `pub` over `t`. -/
def verifySig (pub : KeyId) (s : Sig) (t : TBS) : Bool :=
  s.signer == pub && s.payload == t

/-- An X.509 certificate: signed to-be-signed content. -/
structure X509Cert where
  tbs : TBS
  sig : Sig
deriving DecidableEq, Repr

/-! ### Persisted entities (`src/apps/pki/models.py`) -/

/-- `CertificateAuthority` (models.py lines 12–32).  `serial_number` is the
next serial to hand out (`BigIntegerField(default=1)`). -/
structure CertificateAuthority where
  id : Nat
  name : String
  certificate : X509Cert
  private_key : KeyId
  serial_number : Int
  is_active : Bool
  created_at : Int
  valid_from : Int
  valid_until : Int
deriving DecidableEq, Repr

/-- `Certificate` (models.py lines 35–127).  Note: the model declares the
fields `cert_type` and `revoked` (there is no `certificate_type`,
`is_revoked` or `certificate_hash` field). -/
structure Certificate where
  id : Nat
  ca_id : Nat
  user_id : Option Nat
  cert_type : String
  serial_number : String
  certificate : X509Cert
  private_key : Option KeyId
  subject_dn : String
  issuer_dn : String
  not_before : Int
  not_after : Int
  revoked : Bool
  revocation_date : Option Int
  revocation_reason : Option String
  created_at : Int
deriving DecidableEq, Repr

/-- `Certificate.is_valid` (models.py lines 114–120). -/
def Certificate.is_valid (c : Certificate) (now : Int) : Bool :=
  !c.revoked && decide (c.not_before ≤ now) && decide (now ≤ c.not_after)

/-- `Certificate.revoke` (models.py lines 122–127). -/
def Certificate.revoke (c : Certificate) (reason : String) (now : Int) : Certificate :=
  { c with revoked := true, revocation_date := some now,
           revocation_reason := some reason }

/-- A Certificate Revocation List payload: the signed data the
`CertificateRevocationListBuilder` assembles.  Entries pair a serial number
with its revocation date. -/
structure CrlPayload where
  issuer : String
  lastUpdate : Int
  nextUpdate : Int
  entries : List (Int × Int)
  signer : KeyId
deriving DecidableEq, Repr

/-- `CertificateRevocationList` (models.py lines 130–152): persisted CRL
snapshot. -/
structure CrlRow where
  id : Nat
  ca_id : Nat
  crl_pem : CrlPayload
  this_update : Int
  next_update : Int
deriving DecidableEq, Repr

/-- The relational store for the PKI tables. -/
structure PkiDb where
  cas : List CertificateAuthority
  certs : List Certificate
  crls : List CrlRow
deriving DecidableEq, Repr

/-- Modelled from the spec: the `users.User` model is not under `src/` (only
its migrations are).  Fields are taken from §3 "Session / auth state", §4.4
and the accesses in `middleware_mtls.py` / `mfa_setup.py`: an identifier, a
username, an active flag, the persisted TOTP secret (`otp_secret_key`,
absent until MFA setup confirms it) and the MFA level. -/
structure User where
  id : Nat
  username : String
  email : String
  is_active : Bool
  otp_secret_key : Option String
  mfa_level : Int
  last_login : Option Int
deriving DecidableEq, Repr

/-! ### Django ORM keyword resolution

`Certificate.objects.filter(**kwargs)` resolves each keyword against the
model's declared fields and raises `FieldError` for an unknown keyword.  The
mTLS backend filters on `certificate_type` and `is_revoked`, names the
`Certificate` model does not declare, so deriving that error faithfully
matters; the resolution step is therefore modelled explicitly. -/

/-- A value a filter keyword is compared against. -/
inductive FieldVal
  | s (v : String)
  | b (v : Bool)
  | i (v : Int)
  | null
deriving DecidableEq, Repr

/-- The field names the `Certificate` model declares (models.py lines
35–127 plus the `p12_bundle` field added by migration
`0002_certificate_p12_bundle.py`). -/
def certificateFieldNames : List String :=
  ["id", "ca", "user", "cert_type", "serial_number", "certificate",
   "private_key", "subject_dn", "issuer_dn", "not_before", "not_after",
   "revoked", "revocation_date", "revocation_reason", "created_at",
   "p12_bundle"]

/-- Value of a resolvable filter keyword on a row (only the keywords the
embedded code actually filters on are given values). -/
def Certificate.fieldVal (c : Certificate) : String → FieldVal
  | "id" => .i (Int.ofNat c.id)
  | "ca" => .i (Int.ofNat c.ca_id)
  | "user" => match c.user_id with
      | some u => .i (Int.ofNat u)
      | none => .null
  | "cert_type" => .s c.cert_type
  | "serial_number" => .s c.serial_number
  | "subject_dn" => .s c.subject_dn
  | "issuer_dn" => .s c.issuer_dn
  | "revoked" => .b c.revoked
  | _ => .null

/-- `Certificate.objects.filter(**conds)`: `FieldError` (modelled as
`Except.error`) when a keyword does not resolve against the model's fields,
otherwise the matching rows in table order. -/
def certFilter (certs : List Certificate) (conds : List (String × FieldVal)) :
    Except String (List Certificate) :=
  if conds.all (fun kv => certificateFieldNames.contains kv.1) then
    .ok (certs.filter (fun c => conds.all (fun kv => c.fieldVal kv.1 == kv.2)))
  else
    .error "FieldError: cannot resolve keyword into field"

/-- Result of `Queryset.get(**conds)`. -/
inductive GetResult (α : Type)
  | found (a : α)
  | doesNotExist
  | multiple
deriving DecidableEq, Repr

/-- `Certificate.objects.get(**conds)`. -/
def certGet (certs : List Certificate) (conds : List (String × FieldVal)) :
    Except String (GetResult Certificate) :=
  match certFilter certs conds with
  | .error e => .error e
  | .ok [] => .ok .doesNotExist
  | .ok [c] => .ok (.found c)
  | .ok (_ :: _ :: _) => .ok .multiple

/-! ### Session state (`django_session`, ephemeral per spec §3) -/

/-- A value stored under a session key. -/
inductive SessVal
  | s (v : String)
  | i (v : Int)
  | b (v : Bool)
deriving DecidableEq, Repr

/-- Python truthiness of a session value. -/
def SessVal.truthy : SessVal → Bool
  | .s v => !v.data.isEmpty
  | .i v => v != 0
  | .b v => v

abbrev Session := List (String × SessVal)

/-- `request.session.get(k)` (`None` when absent): the most recent binding
of `k`. -/
def Session.get : Session → String → Option SessVal
  | [], _ => none
  | (k', v) :: rest, k => if k' == k then some v else Session.get rest k

/-- `request.session[k] = v` (association-list update; `get` returns the
most recent binding). -/
def Session.set (sess : Session) (k : String) (v : SessVal) : Session :=
  (k, v) :: sess

/-- `del request.session[k]`. -/
def Session.del (sess : Session) (k : String) : Session :=
  sess.filter (fun kv => kv.1 != k)

/-- Truthiness of `request.session.get(k)` (absent ⇒ falsy). -/
def Session.truthyAt (sess : Session) (k : String) : Bool :=
  match sess.get k with
  | some v => v.truthy
  | none => false

/-! ### mTLS authentication middleware
(`src/apps/authentication/middleware_mtls.py`, `MTLSAuthenticationMiddleware`) -/

/-- Persistent server-side state the request pipeline can reach: the PKI
tables and the user table. -/
structure ServerState where
  db : PkiDb
  users : List User
deriving DecidableEq, Repr

/-- A `JsonResponse` returned by a middleware: HTTP status and the
machine-readable error string. -/
structure HttpResp where
  status : Nat
  error : String
deriving DecidableEq, Repr

/-- Result of one `process_request` run: the response (`none` = let the
request continue), the persistent state, the session, and the user logged in
by `auth_login` during this run (if any). -/
structure MwResult where
  response : Option HttpResp
  state : ServerState
  session : Session
  loggedIn : Option Nat
deriving DecidableEq, Repr

/-- `MTLSAuthenticationMiddleware.TRADITIONAL_AUTH_URLS` (lines 48–52). -/
def TRADITIONAL_AUTH_URLS : List String :=
  ["/django-admin/", "/api/v1/authentication/auth/", "/api/v1/authentication/tokens/"]

def findUser (users : List User) (uid : Nat) : Option User :=
  users.find? (fun u => u.id == uid)

/-- `MTLSAuthenticationMiddleware.process_request` (lines 54–145).

Inputs mirror the request: its path, `request.user` when
`request.user.is_authenticated` (else `none`), and the three nginx headers
(`none` = header absent).  `certificate.user` being `None`, or the
certificate's `user_id` dangling, raises inside the `try` and is caught by
the blanket `except Exception` (lines 141–145), as is a
`MultipleObjectsReturned` from `get`; those paths end in the 500 response. -/
def mtlsProcessRequest (st : ServerState) (sess : Session) (path : String)
    (reqUser : Option User)
    (hVerify hSerial _hDN : Option String) : MwResult :=
  if TRADITIONAL_AUTH_URLS.any (fun u => strStartsWith path u) then
    match reqUser with
    | some _ => ⟨none, st, sess.set "auth_method" (.s "password"), none⟩
    | none => ⟨none, st, sess, none⟩
  else if reqUser.isSome && (sess.get "auth_method" == some (.s "certificate")) then
    ⟨none, st, sess, none⟩
  else
    let cert_verify := hVerify.getD "NONE"
    let cert_serial_hex := hSerial.getD ""
    if cert_verify ≠ "SUCCESS" ∨ cert_serial_hex = "" then
      ⟨none, st, sess, none⟩
    else
      match hexToNat? cert_serial_hex with
      | none => ⟨none, st, sess, none⟩
      | some n =>
        let cert_serial := toString n
        match certGet st.db.certs
            [("serial_number", .s cert_serial), ("revoked", .b false)] with
        | .error _ => ⟨some ⟨500, "Authentication error"⟩, st, sess, none⟩
        | .ok .multiple => ⟨some ⟨500, "Authentication error"⟩, st, sess, none⟩
        | .ok .doesNotExist => ⟨some ⟨401, "Invalid or revoked certificate"⟩, st, sess, none⟩
        | .ok (.found c) =>
          match c.user_id.bind (findUser st.users) with
          | none => ⟨some ⟨500, "Authentication error"⟩, st, sess, none⟩
          | some u =>
            if !u.is_active then
              ⟨some ⟨403, "User account is disabled"⟩, st, sess, none⟩
            else
              let s1 := sess.set "auth_method" (.s "certificate")
              let s2 := if (u.otp_secret_key.getD "") = "" then
                          s1.set "mfa_setup_required" (.b true)
                        else s1
              ⟨none, st, s2, some u.id⟩

/-! ### MFA enforcement middleware
(`src/apps/authentication/middleware_mtls.py`, `MFARequiredMiddleware`) -/

/-- `MFARequiredMiddleware.MFA_EXEMPT_URLS` (lines 157–172). -/
def MFA_EXEMPT_URLS : List String :=
  ["/api/v1/authentication/mfa/setup/", "/api/v1/authentication/mfa/verify-totp/",
   "/api/v1/authentication/mfa/status/", "/api/v1/authentication/auth/",
   "/api/v1/authentication/tokens/", "/api/v1/users/me/", "/api/v1/users/profile/",
   "/api/health/", "/django-admin/", "/setup-mfa", "/mfa-challenge", "/admin",
   "/static/", "/media/"]

/-- `MFARequiredMiddleware.process_request` (lines 174–218).  It only reads
the session, so its result is just the optional blocking response. -/
def mfaRequiredProcessRequest (path : String) (isAuthenticated : Bool)
    (sess : Session) : Option HttpResp :=
  if !isAuthenticated then none
  else if MFA_EXEMPT_URLS.any (fun u => strStartsWith path u) then none
  else if sess.truthyAt "mfa_setup_required" then
    if !strStartsWith path "/setup-mfa" then some ⟨403, "MFA setup required"⟩
    else none
  else if !sess.truthyAt "auth_mfa" then
    if !strStartsWith path "/mfa-challenge" then some ⟨403, "MFA verification required"⟩
    else none
  else none

/-! ### mTLS authentication backend
(`src/apps/authentication/backends/mtls.py`, `MTLSAuthBackend.authenticate`) -/

/-- The distinct exit points of `MTLSAuthBackend.authenticate`, one per
`return` (each also carries a distinct log line in the source).
`exceptionCaught` is the blanket `except Exception` at lines 182–184 —
in particular the `FieldError` raised by the certificate query, since the
filter keywords `certificate_type` / `is_revoked` (lines 84–88) do not
resolve against the `Certificate` model's fields (`cert_type`, `revoked`). -/
inductive BackendOutcome
  | notEnabled
  | noRequest
  | verifyFailed
  | noDN
  | exceptionCaught
  | noCert
  | notYetValid
  | expired
  | reissuanceMismatch
  | cannotAuthenticate
  | notAllowed
  | mfaPending
  | authenticated (uid : Nat)
deriving DecidableEq, Repr

/-- Whether the backend returned a user object. -/
def BackendOutcome.isAuthenticated : BackendOutcome → Bool
  | .authenticated _ => true
  | _ => false

structure BackendResult where
  outcome : BackendOutcome
  state : ServerState
  session : Session
deriving DecidableEq, Repr

/-- `hasattr(cert, 'certificate_hash')` for the `Certificate` model of
`src/apps/pki/models.py` (lines 35–127): the model declares no
`certificate_hash` field and no attribute of that name, so the test is
`False` on every instance. -/
def certificateHasHashAttr : Bool := false

/-- The tail of `MTLSAuthBackend.authenticate` once a certificate row has
been found (mtls.py lines 94–180): expiry checks, the guarded
anti-reissuance hash comparison, user resolution and the MFA gate. -/
def backendPostLookup (mtlsRequireMfa : Bool) (st : ServerState)
    (sess : Session) (client_dn client_cert_pem : String) (cert : Certificate)
    (now : Int) (hashOfCanonicalPem : String → String)
    (userAllowAuthenticate : Nat → Bool) : BackendResult :=
  if now < cert.not_before then ⟨.notYetValid, st, sess⟩
  else if cert.not_after < now then ⟨.expired, st, sess⟩
  else
    -- Anti-reissuance hash check, lines 111–132.  The guard uses
    -- `hasattr(cert, 'certificate_hash')`; with the model as declared this
    -- is `False` (see `certificateHasHashAttr`), so the comparison below is
    -- unreachable.  `storedHash` stands for `cert.certificate_hash`, which
    -- no code path ever writes.
    let storedHash : Option String := none
    let calculated_hash := hashOfCanonicalPem client_cert_pem
    if client_cert_pem ≠ "" ∧ certificateHasHashAttr = true ∧
       storedHash.getD "" ≠ "" ∧ storedHash.getD "" ≠ calculated_hash then
      ⟨.reissuanceMismatch, st, sess⟩
    else
      match cert.user_id.bind (findUser st.users) with
      | none => ⟨.exceptionCaught, st, sess⟩
      | some u =>
        if !u.is_active then ⟨.cannotAuthenticate, st, sess⟩
        else if !userAllowAuthenticate u.id then ⟨.notAllowed, st, sess⟩
        else
          let s1 := (sess.set "mtls_cert_dn" (.s client_dn)).set
                      "mtls_cert_serial" (.s cert.serial_number)
          let user_mfa_enabled := decide (0 < u.mfa_level)
          if mtlsRequireMfa || user_mfa_enabled then
            if !s1.truthyAt ("mtls_mfa_verified_" ++ toString u.id) then
              let s2 := (s1.set "mtls_pending_user_id" (.i (Int.ofNat u.id))).set
                          "mtls_mfa_required" (.b true)
              ⟨.mfaPending, st, s2⟩
            else ⟨.authenticated u.id, st, s1⟩
          else ⟨.authenticated u.id, st, s1⟩

/-- `MTLSAuthBackend.authenticate` (mtls.py lines 46–184).

* `mtlsEnabled` is `settings.MTLS_ENABLED` (default `False`),
  `mtlsRequireMfa` is `settings.MTLS_REQUIRE_MFA` (default `True`).
* `hashOfCanonicalPem` stands for lines 116–120: strip the `-----…-----`
  armor lines and all whitespace from the supplied PEM and take the SHA-256
  hex digest of the result.  It is a parameter because SHA-256 itself is
  not re-modelled; every theorem below holds for an arbitrary digest
  function.
* `userAllowAuthenticate` is `JMSBaseAuthBackend.user_allow_authenticate`,
  whose defining module is not under `src/`; modelled from the spec as an
  arbitrary per-user predicate (`user_can_authenticate` is Django's stock
  `is_active` check).
* `now` is `timezone.now()`. -/
def backendAuthenticate (mtlsEnabled mtlsRequireMfa : Bool)
    (requestPresent : Bool) (st : ServerState) (sess : Session)
    (hVerify hDN hCertPem : Option String) (now : Int)
    (hashOfCanonicalPem : String → String)
    (userAllowAuthenticate : Nat → Bool) : BackendResult :=
  if !mtlsEnabled then ⟨.notEnabled, st, sess⟩
  else if !requestPresent then ⟨.noRequest, st, sess⟩
  else
    let client_verify := hVerify.getD ""
    let client_dn := hDN.getD ""
    let client_cert_pem := hCertPem.getD ""
    if client_verify ≠ "SUCCESS" then ⟨.verifyFailed, st, sess⟩
    else if client_dn = "" then ⟨.noDN, st, sess⟩
    else
      match certFilter st.db.certs
          [("subject_dn", .s client_dn), ("certificate_type", .s "user"),
           ("is_revoked", .b false)] with
      | .error _ => ⟨.exceptionCaught, st, sess⟩
      | .ok lookup =>
        match lookup.head? with
        | none => ⟨.noCert, st, sess⟩
        | some cert =>
          backendPostLookup mtlsRequireMfa st sess client_dn client_cert_pem
            cert now hashOfCanonicalPem userAllowAuthenticate

/-! ### CA manager (`src/apps/pki/ca_manager.py`) -/

/-- Subject built by `create_ca` (lines 41–47), via `rfc4514_string()`. -/
def caSubjectDN (name : String) : String :=
  "CN=" ++ name ++ ",O=Chain of Custody CA,L=City,ST=State,C=US"

/-- `CAManager.create_ca` (lines 21–97).  `newKey` is the freshly generated
RSA-4096 key pair and `caSerial` the `x509.random_serial_number()`; both are
inputs since key generation and randomness are outside the model.  The row
is persisted with the serial counter seeded at 1. -/
def create_ca (name : String) (validity_days : Int) (now : Int)
    (newKey : KeyId) (caSerial : Int) (caId : Nat) (db : PkiDb) :
    CertificateAuthority × PkiDb :=
  let subject := caSubjectDN name
  let tbs : TBS := { subject := subject, issuer := subject, pubKey := newKey,
                     serial := caSerial, notBefore := now,
                     notAfter := now + validity_days, isCA := true }
  let cert : X509Cert := { tbs := tbs, sig := signTBS newKey tbs }
  let ca : CertificateAuthority :=
    { id := caId, name := name, certificate := cert, private_key := newKey,
      serial_number := 1, is_active := true, created_at := now,
      valid_from := now, valid_until := now + validity_days }
  (ca, { db with cas := db.cas ++ [ca] })

/-- Subject built by `issue_user_certificate` (lines 131–136), via
`rfc4514_string()`. -/
def userSubjectDN (u : User) : String :=
  "1.2.840.113549.1.9.1=" ++ u.email ++ ",CN=" ++ u.username ++
    ",O=Chain of Custody,C=US"

/-- `CAManager.issue_user_certificate` (lines 99–200).  Reads the serial
counter, increments and saves it (lines 138–141), builds the leaf signed by
the CA key, and persists a `Certificate` row with `revoked=False`.
`userKey` is the generated RSA-2048 subject key and `certId` the fresh row
id.  Returns the updated CA row, the certificate row, and the store with
the CA row replaced and the certificate appended. -/
def issue_user_certificate (ca : CertificateAuthority) (user : User)
    (validity_days : Int) (now : Int) (userKey : KeyId) (certId : Nat)
    (db : PkiDb) : CertificateAuthority × Certificate × PkiDb :=
  let serial := ca.serial_number
  let ca' := { ca with serial_number := ca.serial_number + 1 }
  let tbs : TBS := { subject := userSubjectDN user,
                     issuer := ca.certificate.tbs.subject, pubKey := userKey,
                     serial := serial, notBefore := now,
                     notAfter := now + validity_days, isCA := false }
  let cert : X509Cert := { tbs := tbs, sig := signTBS ca.private_key tbs }
  let row : Certificate :=
    { id := certId, ca_id := ca.id, user_id := some user.id,
      cert_type := "user", serial_number := toString serial,
      certificate := cert, private_key := some userKey,
      subject_dn := userSubjectDN user,
      issuer_dn := ca.certificate.tbs.subject,
      not_before := now, not_after := now + validity_days,
      revoked := false, revocation_date := none, revocation_reason := none,
      created_at := now }
  (ca', row,
   { db with cas := db.cas.map (fun c => if c.id == ca.id then ca' else c),
             certs := db.certs ++ [row] })

/-- `CAManager.verify_certificate` (lines 202–252): verify the signature
against the CA certificate's public key, check the validity window at `now`,
then check whether any row with this serial is revoked.  Failures inside the
`try` (here: an invalid signature) return `(False, str(e))`. -/
def verify_certificate (cert : X509Cert) (ca : CertificateAuthority)
    (db : PkiDb) (now : Int) : Bool × Option String :=
  if !verifySig ca.certificate.tbs.pubKey cert.sig cert.tbs then
    (false, some "InvalidSignature")
  else if now < cert.tbs.notBefore then (false, some "Certificate not yet valid")
  else if cert.tbs.notAfter < now then (false, some "Certificate expired")
  else if db.certs.any
      (fun c => c.serial_number == toString cert.tbs.serial && c.revoked) then
    (false, some "Certificate revoked")
  else (true, none)

/-- One CRL entry (`RevokedCertificateBuilder`, ca_manager.py lines
333–340): `int(cert.serial_number)` and `cert.revocation_date`.  `none`
models the exception raised when the serial does not parse or the
revocation date is `None`. -/
def crlEntry? (c : Certificate) : Option (Int × Int) :=
  match strToInt? c.serial_number, c.revocation_date with
  | some s, some d => some (s, d)
  | _, _ => none

/-- Entries of the CRL built by `generate_crl`; the first failing
certificate aborts the build (there is no per-certificate `try` in
`ca_manager.py`). -/
def crlEntriesOf : List Certificate → Option (List (Int × Int))
  | [] => some []
  | c :: rest =>
    match crlEntry? c, crlEntriesOf rest with
    | some e, some es => some (e :: es)
    | _, _ => none

/-- The revoked certificates of a CA:
`Certificate.objects.filter(ca=ca, revoked=True)`. -/
def revokedCertsOf (db : PkiDb) (ca : CertificateAuthority) : List Certificate :=
  db.certs.filter (fun c => c.ca_id == ca.id && c.revoked)

/-- `CAManager.generate_crl` (lines 300–360): build and sign a CRL over all
revoked certificates of `ca` with `last_update = now` and
`next_update = now + 7 days` (lines 328–330), then persist a snapshot row
with `this_update = now`, `next_update = now + 7 days` (lines 353–358).
`none` models an exception escaping the build. -/
def generate_crl (ca : CertificateAuthority) (db : PkiDb) (now : Int)
    (crlId : Nat) : Option (CrlPayload × CrlRow × PkiDb) :=
  match crlEntriesOf (revokedCertsOf db ca) with
  | none => none
  | some es =>
    let payload : CrlPayload :=
      { issuer := ca.certificate.tbs.subject, lastUpdate := now,
        nextUpdate := now + 7, entries := es, signer := ca.private_key }
    let row : CrlRow :=
      { id := crlId, ca_id := ca.id, crl_pem := payload,
        this_update := now, next_update := now + 7 }
    some (payload, row, { db with crls := db.crls ++ [row] })

/-- Revoke the certificate row with id `certId` in the store
(`Certificate.revoke`, models.py lines 122–127, applied through the ORM). -/
def revokeInDb (db : PkiDb) (certId : Nat) (reason : String) (now : Int) : PkiDb :=
  { db with
    certs := db.certs.map (fun c => if c.id == certId then c.revoke reason now else c) }

/-! ### CRL-building management commands -/

/-- The CRL built by `update_crl` (management command, `Command.handle`):
`last_update = datetime.utcnow()` (first call, `now1`) and
`next_update = datetime.utcnow() + timedelta(days=30)` (second call,
`now2`) — command file lines 50–51.  Each entry uses
`cert.revocation_date or datetime.utcnow()` (`nowFallback`), and a failing
entry is skipped by the per-certificate `try` (lines 54–65), so the build
itself always succeeds.  The command writes the CRL to a file; no snapshot
row is persisted. -/
def updateCrlBuild (ca : CertificateAuthority) (db : PkiDb)
    (now1 now2 nowFallback : Int) : CrlPayload :=
  { issuer := ca.certificate.tbs.subject, lastUpdate := now1,
    nextUpdate := now2 + 30,
    entries := (revokedCertsOf db ca).filterMap
      (fun c => (strToInt? c.serial_number).map
        (fun s => (s, c.revocation_date.getD nowFallback))),
    signer := ca.private_key }

/-- The CRL built by `export_crl` (management command): `last_update` and
`next_update = … + timedelta(days=7)` both from `timezone.now()`, entries
using `cert.revocation_date or cert.created_at`, failing entries skipped by
the per-certificate `try`.  Written to a file; no snapshot row. -/
def exportCrlBuild (ca : CertificateAuthority) (db : PkiDb) (now : Int) :
    CrlPayload :=
  { issuer := ca.certificate.tbs.subject, lastUpdate := now,
    nextUpdate := now + 7,
    entries := (revokedCertsOf db ca).filterMap
      (fun c => (strToInt? c.serial_number).map
        (fun s => (s, c.revocation_date.getD c.created_at))),
    signer := ca.private_key }

/-- A sequence of `issue_user_certificate` calls against one CA, each call
seeing the CA row as left by the previous one.  Each list element supplies
the principal, the generated subject key and the fresh row id of one call. -/
def issueSeq (validity_days now : Int) :
    CertificateAuthority → PkiDb → List (User × KeyId × Nat) →
    CertificateAuthority × List Certificate
  | ca, _, [] => (ca, [])
  | ca, db, (u, k, cid) :: rest =>
    let r := issue_user_certificate ca u validity_days now k cid db
    let r2 := issueSeq validity_days now r.1 r.2.2 rest
    (r2.1, r.2.1 :: r2.2)

/-! ### TOTP (external `pyotp` library contract) -/

/-- Modelled from the spec (§4.4, glossary) and the `pyotp` contract: a TOTP
code is a pure function of the shared secret and the 30-second timestep.
The exact HMAC computation is irrelevant to the claims; what matters is that
codes for different (secret, timestep) pairs are distinct, which this
concrete encoding guarantees. -/
def totpAt (secret : String) (step : Int) : String :=
  secret ++ ":" ++ toString step

/-- `pyotp.TOTP(secret).verify(code, valid_window=1)` at timestep `step`:
the code matches the staged secret within a ±1-step skew window. -/
def totpVerify (secret code : String) (step : Int) : Bool :=
  code == totpAt secret (step - 1) || code == totpAt secret step ||
    code == totpAt secret (step + 1)

/-! ### MFA setup endpoint
(`src/apps/authentication/api/mfa_setup.py`, `MFASetupView.post`) -/

/-- The distinct exit points of `MFASetupView.post`, one per `return`. -/
inductive MfaPostOutcome
  | authRequired401
  | sessionExpired401
  | codeRequired400
  | noPendingSetup400
  | invalidCode400
  | success (uid : Nat)
deriving DecidableEq, Repr

structure MfaPostResult where
  outcome : MfaPostOutcome
  users : List User
  session : Session
  loggedIn : Option Nat
  tokenIssued : Bool
deriving DecidableEq, Repr

/-- `MFASetupView.post` (mfa_setup.py lines 103–188).

* `authUser` is `request.user` when authenticated (certificate or DRF);
  otherwise the session's `auth_username` resolves the principal.
* `code` is `request.data.get('code')`.
* `step` is the current TOTP timestep, `now` the wall clock used for
  `time.time()` / `timezone.now()`.
* On a verified code the staged secret is persisted to the user row
  (`otp_secret_key`, `mfa_level = 2`), the user is logged in, the session
  is marked MFA-verified, the pending secret is cleared and a bearer token
  is issued (`tokenIssued`). -/
def mfaSetupPost (users : List User) (sess : Session) (authUser : Option User)
    (code : Option String) (step now : Int) : MfaPostResult :=
  let resolved : Option User ⊕ MfaPostOutcome :=
    match authUser with
    | some u => .inl (some u)
    | none =>
      match sess.get "auth_username" with
      | some (.s un) => .inl (users.find? (fun v => v.username == un))
      | some _ => .inl none
      | none => .inr .authRequired401
  match resolved with
  | .inr o => ⟨o, users, sess, none, false⟩
  | .inl none => ⟨.sessionExpired401, users, sess, none, false⟩
  | .inl (some u) =>
    if (code.getD "") = "" then ⟨.codeRequired400, users, sess, none, false⟩
    else
      let c := code.getD ""
      match sess.get "pending_mfa_secret" with
      | some (.s secret) =>
        if secret = "" then ⟨.noPendingSetup400, users, sess, none, false⟩
        else if !totpVerify secret c step then
          ⟨.invalidCode400, users, sess, none, false⟩
        else
          let users' := users.map (fun v =>
            if v.id == u.id then
              { v with otp_secret_key := some secret, mfa_level := 2,
                       last_login := some now }
            else v)
          let s1 := ((((sess.set "auth_mfa" (.i 1)).set
            "auth_mfa_username" (.s u.username)).set
            "auth_mfa_time" (.i now)).set
            "auth_mfa_required" (.i 0)).set "auth_mfa_type" (.s "totp")
          let s2 := s1.del "pending_mfa_secret"
          ⟨.success u.id, users', s2, some u.id, true⟩
      | some _ => ⟨.noPendingSetup400, users, sess, none, false⟩
      | none => ⟨.noPendingSetup400, users, sess, none, false⟩

/-! ### Certificate-issuance API view
(`src/apps/pki/api/views.py`, `UserCertificateViewSet.issue`) -/

/-- Modelled from the spec: the `UserCertificate` model that
`src/apps/pki/api/views.py` imports is not under `src/` (the pki app's
`models.py` defines a different generation of the schema).  Fields follow
the spec's §3 Certificate entity and the view's own usage: a bound
principal, serial, subject DN, validity window, and a `status` that is one
of `valid` / `revoked` / `superseded` / `expired`. -/
structure UserCertificate where
  id : Nat
  ca_id : Nat
  user_id : Nat
  serial_number : String
  subject_dn : String
  not_valid_before : Int
  not_valid_after : Int
  status : String
deriving DecidableEq, Repr

/-- The distinct exit points of `UserCertificateViewSet.issue`
(views.py lines 238–375), one per `return` / `raise`. -/
inductive IssueOutcome
  | permissionDenied403
  | badAlgorithm400
  | badKeySize400
  | userNotFound404
  | alreadyHasValid400 (certId : Nat)
  | noActiveCA500
  | issueFailed500
deriving DecidableEq, Repr

/-- `UserCertificateViewSet.issue` (views.py lines 238–375).  In order:
permission check; parameter validation; user lookup; the existing-valid-
certificate check (lines 303–318), which rejects with HTTP 400 when the
target user already holds a certificate with `status='valid'` and
`not_valid_after > now`; active-CA lookup; then the issuance call.  That
call (lines 333–339) passes `key_algorithm` / `key_size` keywords that
`CAManager.issue_user_certificate` (ca_manager.py line 100) does not
accept, so it raises `TypeError`, caught at line 370 and returned as the
500 response — hence no path of this view creates a `UserCertificate` row,
and the returned table always equals the input. -/
def viewIssue (isSuperuser hasIssuePerm : Bool) (users : List User)
    (userIdParam : Nat) (key_algorithm : String) (key_size : Int)
    (userCerts : List UserCertificate) (db : PkiDb) (now : Int) :
    IssueOutcome × List UserCertificate :=
  if !(isSuperuser || hasIssuePerm) then (.permissionDenied403, userCerts)
  else if key_algorithm ≠ "rsa" ∧ key_algorithm ≠ "ecc" then
    (.badAlgorithm400, userCerts)
  else if key_algorithm = "rsa" ∧ key_size ≠ 2048 ∧ key_size ≠ 3072 ∧
      key_size ≠ 4096 then
    (.badKeySize400, userCerts)
  else
    match users.find? (fun u => u.id == userIdParam) with
    | none => (.userNotFound404, userCerts)
    | some target =>
      match userCerts.find? (fun c =>
          c.user_id == target.id && c.status == "valid" &&
            decide (now < c.not_valid_after)) with
      | some existing => (.alreadyHasValid400 existing.id, userCerts)
      | none =>
        match (db.cas.filter (fun ca => ca.is_active)).head? with
        | none => (.noActiveCA500, userCerts)
        | some _ => (.issueFailed500, userCerts)

/-! ## Supporting lemmas -/

theorem Session.get_set_self (sess : Session) (k : String) (v : SessVal) :
    (sess.set k v).get k = some v := by
  simp [Session.get, Session.set]

theorem Session.get_set_ne (sess : Session) (k k' : String) (v : SessVal)
    (h : ¬ k' = k) : (sess.set k v).get k' = sess.get k' := by
  simp only [Session.set, Session.get]
  rw [if_neg (by simp only [beq_iff_eq]; exact fun e => h e.symm)]

theorem Session.get_del_self (sess : Session) (k : String) :
    (sess.del k).get k = none := by
  simp only [Session.del]
  induction sess with
  | nil => rfl
  | cons kv rest ih =>
    obtain ⟨k1, v1⟩ := kv
    by_cases hk : k1 = k
    · rw [List.filter_cons_of_neg (by simp [hk])]
      exact ih
    · rw [List.filter_cons_of_pos (by simp [hk])]
      simp only [Session.get]
      rw [if_neg (by simp only [beq_iff_eq]; exact hk)]
      exact ih

theorem Session.get_del_ne (sess : Session) (k k' : String)
    (h : ¬ k' = k) : (sess.del k).get k' = sess.get k' := by
  simp only [Session.del]
  induction sess with
  | nil => rfl
  | cons kv rest ih =>
    obtain ⟨k1, v1⟩ := kv
    by_cases hk : k1 = k
    · rw [List.filter_cons_of_neg (by simp [hk])]
      rw [ih]
      simp only [Session.get]
      rw [if_neg (by simp only [beq_iff_eq]; exact fun e => h (by rw [← e, hk]))]
    · rw [List.filter_cons_of_pos (by simp [hk])]
      simp only [Session.get]
      by_cases hk' : k1 = k'
      · rw [if_pos (by simp [hk']), if_pos (by simp [hk'])]
      · rw [if_neg (by simp [hk']), if_neg (by simp [hk'])]
        exact ih

/-! ## Claims -/

/-- The backend's certificate query always raises: the filter keywords
`certificate_type` and `is_revoked` (mtls.py lines 84–88) do not resolve
against the `Certificate` model's declared fields. -/
theorem backend_certFilter_raises (certs : List Certificate) (dn : String) :
    certFilter certs
      [("subject_dn", .s dn), ("certificate_type", .s "user"),
       ("is_revoked", .b false)] =
        .error "FieldError: cannot resolve keyword into field" := rfl

theorem backendPostLookup_never_reissuance (mtlsRequireMfa : Bool)
    (st : ServerState) (sess : Session) (dn pem : String) (cert : Certificate)
    (now : Int) (hashFn : String → String) (allowAuth : Nat → Bool) :
    (backendPostLookup mtlsRequireMfa st sess dn pem cert now hashFn
        allowAuth).outcome ≠ .reissuanceMismatch := by
  simp only [backendPostLookup]
  split
  · simp
  · split
    · simp
    · split
      · next h => exact absurd h.2.1 (by simp [certificateHasHashAttr])
      · split
        · simp
        · split
          · simp
          · split
            · simp
            · split
              · split
                · simp
                · simp
              · simp

/-- `alice`, an active user holding a certificate. -/
def aliceUser : User := ⟨1, "alice", "alice@example.com", true, none, 0, none⟩

def sampleCaTbs : TBS :=
  ⟨caSubjectDN "Internal CA", caSubjectDN "Internal CA", 100, 1, 0, 3650, true⟩

def sampleCaCert : X509Cert := ⟨sampleCaTbs, signTBS 100 sampleCaTbs⟩

/-- A concrete CA row (serial counter at 1000). -/
def sampleCA : CertificateAuthority :=
  ⟨10, "Internal CA", sampleCaCert, 100, 1000, true, 0, 0, 3650⟩

def aliceTbs : TBS :=
  ⟨userSubjectDN aliceUser, sampleCaTbs.subject, 101, 1000, 0, 365, false⟩

/-- A valid, non-revoked certificate row bound to `alice`, signed by the
sample CA. -/
def aliceCertRow : Certificate :=
  ⟨20, 10, some 1, "user", "1000", ⟨aliceTbs, signTBS 100 aliceTbs⟩, some 101,
   userSubjectDN aliceUser, sampleCaTbs.subject, 0, 365, false, none, none, 0⟩

/-- Store and user table for the anti-reissuance scenario: `alice` exists
and holds a matching valid certificate. -/
def tamperState : ServerState := ⟨⟨[sampleCA], [aliceCertRow], []⟩, [aliceUser]⟩

/-- **C1.**  For every inbound request, if the proxy-reported verification
header is anything other than `SUCCESS`, or no certificate serial is
present, the mTLS pipeline never establishes a certificate-authenticated
session (the spec's `CertVerifyFailed` terminal): the middleware performs no
`auth_login` and does not newly tag the session `auth_method=certificate`,
for every serial/DN combination supplied; and the backend returns no user
whenever verification is not `SUCCESS`. -/
theorem C1_no_success_or_no_serial_never_cert_authenticates
    (st : ServerState) (sess : Session) (path : String) (reqUser : Option User)
    (hVerify hSerial hDN : Option String)
    (h : hVerify ≠ some "SUCCESS" ∨ hSerial.getD "" = "")
    (mtlsEnabled mtlsRequireMfa reqPresent : Bool) (hCertPem : Option String)
    (now : Int) (hashFn : String → String) (allowAuth : Nat → Bool) :
    ((mtlsProcessRequest st sess path reqUser hVerify hSerial hDN).loggedIn
        = none ∧
      (Session.get (mtlsProcessRequest st sess path reqUser hVerify hSerial
          hDN).session "auth_method" = some (.s "certificate") →
        Session.get sess "auth_method" = some (.s "certificate"))) ∧
    (hVerify ≠ some "SUCCESS" →
      (backendAuthenticate mtlsEnabled mtlsRequireMfa reqPresent st sess
          hVerify hDN hCertPem now hashFn allowAuth).outcome.isAuthenticated
        = false) := by
  constructor
  · have hguard : hVerify.getD "NONE" ≠ "SUCCESS" ∨ hSerial.getD "" = "" := by
      rcases h with h | h
      · left
        cases hVerify with
        | none => simp
        | some v =>
          intro hveq
          exact h (congrArg Option.some (by simpa using hveq))
      · right; exact h
    unfold mtlsProcessRequest
    split
    · split
      · constructor
        · rfl
        · intro hc
          rw [Session.get_set_self] at hc
          exact absurd hc (by decide)
      · exact ⟨rfl, fun hc => hc⟩
    · split
      · exact ⟨rfl, fun hc => hc⟩
      · rw [if_pos hguard]
        exact ⟨rfl, fun hc => hc⟩
  · intro hv
    have hguard : hVerify.getD "" ≠ "SUCCESS" := by
      cases hVerify with
      | none => simp
      | some v =>
        intro hveq
        exact hv (congrArg Option.some (by simpa using hveq))
    cases mtlsEnabled <;> cases reqPresent <;>
      simp [backendAuthenticate, hguard, BackendOutcome.isAuthenticated]

/-- Witness for C1 at a concrete request: verification header `FAILED`
with a serial and DN supplied. -/
theorem C1_witness :
    (mtlsProcessRequest ⟨⟨[], [], []⟩, []⟩ [] "/api/v1/evidence/" none
        (some "FAILED") (some "1A") (some "CN=alice")).loggedIn = none ∧
    (backendAuthenticate true true true ⟨⟨[], [], []⟩, []⟩ []
        (some "FAILED") (some "CN=alice") none 0 (fun s => s)
        (fun _ => true)).outcome.isAuthenticated = false := by
  have h := C1_no_success_or_no_serial_never_cert_authenticates
    ⟨⟨[], [], []⟩, []⟩ [] "/api/v1/evidence/" none (some "FAILED") (some "1A")
    (some "CN=alice") (Or.inl (by decide)) true true true none 0
    (fun s => s) (fun _ => true)
  exact ⟨h.1.1, h.2 (by decide)⟩

/-- **C2** (code bug).  The claimed anti-reissuance pipeline never happens.
First conjunct: on the failing input — proxy verification `SUCCESS`, a DN
matching `alice`'s valid non-revoked certificate and tampered raw
certificate bytes — the backend ends in the blanket-`except` outcome (the
certificate query raises `FieldError`); it neither authenticates nor
produces the distinct reissuance/tamper signal.  Second conjunct: no input
whatsoever can produce the reissuance-mismatch signal, for any digest
function — the guard `hasattr(cert, 'certificate_hash')` is false because
the `Certificate` model declares no such field, and no hash is recorded at
issuance. -/
theorem C2_reissuance_check_never_fires :
    ((backendAuthenticate true true true tamperState []
        (some "SUCCESS") (some (userSubjectDN aliceUser))
        (some "TAMPERED-PEM-BYTES") 0 (fun _ => "0d00") (fun _ => true)).outcome
      = .exceptionCaught) ∧
    (∀ (mtlsEnabled mtlsRequireMfa reqPresent : Bool) (st : ServerState)
       (sess : Session) (hVerify hDN hCertPem : Option String) (now : Int)
       (hashFn : String → String) (allowAuth : Nat → Bool),
      (backendAuthenticate mtlsEnabled mtlsRequireMfa reqPresent st sess
          hVerify hDN hCertPem now hashFn allowAuth).outcome ≠
        .reissuanceMismatch) := by
  constructor
  · rfl
  · intro mtlsEnabled mtlsRequireMfa reqPresent st sess hVerify hDN hCertPem
      now hashFn allowAuth
    simp only [backendAuthenticate]
    repeat' first
    | exact backendPostLookup_never_reissuance mtlsRequireMfa st sess _ _ _
        now hashFn allowAuth
    | simp
    | split

/-- **C8.**  Processing one inbound request through the mTLS pipeline never
mutates any `Certificate` or `CertificateAuthority` record (nor any user
record): for every request and whatever the outcome, both the middleware
and the backend leave the persistent state untouched — only the session
(and the login effect) changes. -/
theorem C8_pipeline_never_mutates_pki_state
    (st : ServerState) (sess : Session) (path : String) (reqUser : Option User)
    (hVerify hSerial hDN : Option String)
    (mtlsEnabled mtlsRequireMfa reqPresent : Bool) (hCertPem : Option String)
    (now : Int) (hashFn : String → String) (allowAuth : Nat → Bool) :
    (mtlsProcessRequest st sess path reqUser hVerify hSerial hDN).state = st ∧
    (backendAuthenticate mtlsEnabled mtlsRequireMfa reqPresent st sess
        hVerify hDN hCertPem now hashFn allowAuth).state = st := by
  have hpost : ∀ (dn pem : String) (cert : Certificate),
      (backendPostLookup mtlsRequireMfa st sess dn pem cert now hashFn
        allowAuth).state = st := by
    intro dn pem cert
    simp only [backendPostLookup]
    repeat' first
    | rfl
    | split
  constructor
  · simp only [mtlsProcessRequest]
    repeat' first
    | rfl
    | split
  · simp only [backendAuthenticate]
    repeat' first
    | exact hpost _ _ _
    | rfl
    | split

/-- **C10.**  A request whose user is not authenticated passes the MFA gate
unblocked (`process_request` returns `None`) regardless of its path or of
any MFA flags in the session; the 403 "MFA setup required" / "MFA
verification required" responses are produced only for requests that carry
an authenticated user. -/
theorem C10_mfa_gate_skips_unauthenticated
    (path : String) (sess : Session) :
    mfaRequiredProcessRequest path false sess = none ∧
    ∀ (p : String) (auth : Bool) (s : Session) (resp : HttpResp),
      mfaRequiredProcessRequest p auth s = some resp → auth = true := by
  constructor
  · rfl
  · intro p auth s resp hr
    cases auth with
    | true => rfl
    | false => exact absurd hr (by simp [mfaRequiredProcessRequest])

/-- **C3.**  For every leaf certificate just issued by
`issue_user_certificate` under a CA whose stored certificate matches its
private key, `verify_certificate` on that certificate against the CA,
evaluated at the issuance time over the post-issuance store, returns
`(True, None)`: the signature verifies against the CA public key, the
current time lies inside the validity window, and the certificate is not
revoked.  The freshness hypothesis rules out a pre-existing *revoked* row
carrying the same serial (guaranteed in the source by the unique constraint
on `serial_number`). -/
theorem C3_verify_succeeds_immediately_after_issue
    (ca : CertificateAuthority) (user : User) (validity_days now : Int)
    (userKey : KeyId) (certId : Nat) (db : PkiDb)
    (hWf : ca.certificate.tbs.pubKey = ca.private_key)
    (hDays : 0 ≤ validity_days)
    (hFresh : ∀ c ∈ db.certs, c.revoked = true →
        c.serial_number ≠ toString ca.serial_number) :
    verify_certificate
      (issue_user_certificate ca user validity_days now userKey certId
        db).2.1.certificate
      ca
      (issue_user_certificate ca user validity_days now userKey certId db).2.2
      now = (true, none) := by
  unfold issue_user_certificate verify_certificate
  dsimp only
  split_ifs with h1 h2 h3 h4
  · exact absurd h1 (by simp [verifySig, signTBS, hWf])
  · exact absurd h2 (by simp)
  · exact absurd h3 (by omega)
  · exfalso
    simp only [List.any_append, Bool.or_eq_true, List.any_eq_true] at h4
    rcases h4 with ⟨c, hc, hcc⟩ | h4
    · rw [Bool.and_eq_true] at hcc
      exact hFresh c hc hcc.2 (by simpa using hcc.1)
    · simp at h4
  · rfl

/-- Witness for C3: a fresh issuance for `alice` under the sample CA over
the empty store verifies immediately. -/
theorem C3_witness :
    verify_certificate
      (issue_user_certificate sampleCA aliceUser 365 0 101 20
        ⟨[sampleCA], [], []⟩).2.1.certificate
      sampleCA
      (issue_user_certificate sampleCA aliceUser 365 0 101 20
        ⟨[sampleCA], [], []⟩).2.2
      0 = (true, none) :=
  C3_verify_succeeds_immediately_after_issue sampleCA aliceUser 365 0 101 20
    ⟨[sampleCA], [], []⟩ (by decide) (by decide) (by intro c hc; simp at hc)

theorem issue_serial_eq (ca : CertificateAuthority) (u : User)
    (d n : Int) (k : KeyId) (cid : Nat) (db : PkiDb) :
    (issue_user_certificate ca u d n k cid db).2.1.certificate.tbs.serial
      = ca.serial_number := rfl

theorem issue_counter_eq (ca : CertificateAuthority) (u : User)
    (d n : Int) (k : KeyId) (cid : Nat) (db : PkiDb) :
    (issue_user_certificate ca u d n k cid db).1.serial_number
      = ca.serial_number + 1 := rfl

/-- The serials handed out by a sequence of issuance calls are exactly the
consecutive integers starting at the CA's counter. -/
theorem issueSeq_serials_eq (validity_days now : Int)
    (calls : List (User × KeyId × Nat)) :
    ∀ (ca : CertificateAuthority) (db : PkiDb),
      (issueSeq validity_days now ca db calls).2.map
          (fun c => c.certificate.tbs.serial)
        = (List.range calls.length).map
            (fun i : Nat => ca.serial_number + (i : Int)) := by
  induction calls with
  | nil => intro ca db; simp [issueSeq]
  | cons hd tl ih =>
    intro ca db
    obtain ⟨u, k, cid⟩ := hd
    simp only [issueSeq, List.map_cons, List.length_cons]
    rw [ih, issue_serial_eq, issue_counter_eq, List.range_succ_eq_map,
      List.map_cons, List.map_map]
    refine congrArg₂ List.cons (by simp) ?_
    congr 1
    funext i
    simp only [Function.comp_apply]
    push_cast
    ring

/-- The CA counter after a sequence of issuance calls. -/
theorem issueSeq_counter_eq (validity_days now : Int)
    (calls : List (User × KeyId × Nat)) :
    ∀ (ca : CertificateAuthority) (db : PkiDb),
      (issueSeq validity_days now ca db calls).1.serial_number
        = ca.serial_number + calls.length := by
  induction calls with
  | nil => intro ca db; simp [issueSeq]
  | cons hd tl ih =>
    intro ca db
    obtain ⟨u, k, cid⟩ := hd
    simp only [issueSeq, List.length_cons]
    rw [ih, issue_counter_eq]
    push_cast
    ring

/-- **C4.**  Each `issue_user_certificate` call assigns the certificate the
serial equal to the CA's next-serial counter before the call and leaves the
counter incremented by exactly one; consequently, over any sequence of
issuance calls against one CA, the issued serials are pairwise distinct and
the counter never decreases. -/
theorem C4_serials_monotone_and_distinct
    (ca : CertificateAuthority) (user : User) (validity_days now : Int)
    (userKey : KeyId) (certId : Nat) (db : PkiDb)
    (calls : List (User × KeyId × Nat)) :
    ((issue_user_certificate ca user validity_days now userKey certId
        db).2.1.certificate.tbs.serial = ca.serial_number ∧
     (issue_user_certificate ca user validity_days now userKey certId
        db).1.serial_number = ca.serial_number + 1) ∧
    (((issueSeq validity_days now ca db calls).2.map
        (fun c => c.certificate.tbs.serial)).Nodup ∧
     (issueSeq validity_days now ca db calls).1.serial_number
        = ca.serial_number + calls.length ∧
     ca.serial_number ≤ (issueSeq validity_days now ca db calls).1.serial_number) := by
  refine ⟨⟨issue_serial_eq .., issue_counter_eq ..⟩, ?_, ?_, ?_⟩
  · rw [issueSeq_serials_eq]
    refine List.Nodup.map ?_ (List.nodup_range calls.length)
    intro a b hab
    simpa using hab
  · exact issueSeq_counter_eq validity_days now calls ca db
  · rw [issueSeq_counter_eq]
    omega

theorem crlEntriesOf_isSome (l : List Certificate)
    (h : ∀ c ∈ l, (strToInt? c.serial_number).isSome ∧ c.revocation_date.isSome) :
    (crlEntriesOf l).isSome := by
  induction l with
  | nil => simp [crlEntriesOf]
  | cons c rest ih =>
    have hc := h c (by simp)
    have hr := ih (fun x hx => h x (by simp [hx]))
    rcases Option.isSome_iff_exists.1 hc.1 with ⟨s, hs⟩
    rcases Option.isSome_iff_exists.1 hc.2 with ⟨d, hd⟩
    rcases Option.isSome_iff_exists.1 hr with ⟨es, hes⟩
    simp [crlEntriesOf, crlEntry?, hs, hd, hes]

theorem crlEntriesOf_mem (l : List Certificate) (es : List (Int × Int))
    (hl : crlEntriesOf l = some es) (c : Certificate) (hc : c ∈ l)
    (s d : Int) (hs : strToInt? c.serial_number = some s)
    (hd : c.revocation_date = some d) : (s, d) ∈ es := by
  induction l generalizing es with
  | nil => cases hc
  | cons c0 rest ih =>
    rcases hE : crlEntry? c0 with _ | e <;>
      rcases hR : crlEntriesOf rest with _ | es' <;>
      simp only [crlEntriesOf, hE, hR] at hl
    · exact Option.noConfusion hl
    · exact Option.noConfusion hl
    · exact Option.noConfusion hl
    · injection hl with hl2
      subst hl2
      rcases List.mem_cons.1 hc with rfl | hcr
      · have hEc : crlEntry? c = some (s, d) := by simp [crlEntry?, hs, hd]
        rw [hEc] at hE
        injection hE with hE2
        subst hE2
        exact List.mem_cons_self _ _
      · exact List.mem_cons_of_mem _ (ih es' hR hcr)

theorem crlEntriesOf_mem_rev (l : List Certificate) (es : List (Int × Int))
    (hl : crlEntriesOf l = some es) (s d : Int) (hp : (s, d) ∈ es) :
    ∃ c ∈ l, strToInt? c.serial_number = some s ∧
      c.revocation_date = some d := by
  induction l generalizing es with
  | nil =>
    simp only [crlEntriesOf] at hl
    injection hl with hl2
    subst hl2
    cases hp
  | cons c0 rest ih =>
    rcases hE : crlEntry? c0 with _ | e <;>
      rcases hR : crlEntriesOf rest with _ | es' <;>
      simp only [crlEntriesOf, hE, hR] at hl
    · exact Option.noConfusion hl
    · exact Option.noConfusion hl
    · exact Option.noConfusion hl
    · injection hl with hl2
      subst hl2
      rcases List.mem_cons.1 hp with hph | hpr
      · refine ⟨c0, by simp, ?_⟩
        subst hph
        simp only [crlEntry?] at hE
        rcases h1 : strToInt? c0.serial_number with _ | s1 <;>
          rcases h2 : c0.revocation_date with _ | d1 <;>
          rw [h1, h2] at hE
        · exact Option.noConfusion hE
        · exact Option.noConfusion hE
        · exact Option.noConfusion hE
        · injection hE with hE2
          injection hE2 with ha hb
          subst ha
          subst hb
          exact ⟨rfl, rfl⟩
      · rcases ih es' hR hpr with ⟨c1, hc1, hc2⟩
        exact ⟨c1, List.mem_cons_of_mem _ hc1, hc2⟩

/-- **C5.**  After revoking a certificate `c` of CA `ca`, `generate_crl`
produces a CRL in which `c`'s serial appears as a revoked entry (with its
revocation date); and a certificate of that CA that has never been revoked
never appears in any CRL produced by `generate_crl`.  Hypotheses: `c` is in
the store, belongs to `ca`, its row id and the parsed serials are unique
(the source guarantees both with database unique constraints), every
already-revoked certificate of the CA is well-formed enough to enter a CRL,
and the never-revoked certificate `c₀` is not revoked in its store. -/
theorem C5_crl_contains_exactly_revoked
    (db db₀ : PkiDb) (ca : CertificateAuthority) (c c₀ : Certificate)
    (reason : String) (t0 t t' : Int) (k k' : Nat) (s s₀ : Int)
    (hmem : c ∈ db.certs) (hca : c.ca_id = ca.id)
    (hid : ∀ c' ∈ db.certs, c'.id = c.id → c' = c)
    (hs : strToInt? c.serial_number = some s)
    (hrev : ∀ c' ∈ db.certs, c'.revoked = true → c'.ca_id = ca.id →
      (strToInt? c'.serial_number).isSome ∧ c'.revocation_date.isSome)
    (_hmem0 : c₀ ∈ db₀.certs) (hnever : c₀.revoked = false)
    (_hs0 : strToInt? c₀.serial_number = some s₀)
    (huniq : ∀ c' ∈ db₀.certs, c' ≠ c₀ → strToInt? c'.serial_number ≠ some s₀) :
    ((generate_crl ca (revokeInDb db c.id reason t0) t k).isSome ∧
     ∀ res, generate_crl ca (revokeInDb db c.id reason t0) t k = some res →
       (s, t0) ∈ res.1.entries) ∧
    (∀ res (d : Int), generate_crl ca db₀ t' k' = some res →
       (s₀, d) ∉ res.1.entries) := by
  have hmemDb : c.revoke reason t0 ∈ (revokeInDb db c.id reason t0).certs := by
    simp only [revokeInDb]
    have h1 := List.mem_map_of_mem
      (fun x => if x.id == c.id then x.revoke reason t0 else x) hmem
    simpa using h1
  have hmemRev : c.revoke reason t0 ∈
      revokedCertsOf (revokeInDb db c.id reason t0) ca := by
    refine List.mem_filter.2 ⟨hmemDb, ?_⟩
    simp [Certificate.revoke, hca]
  have hall : ∀ x ∈ revokedCertsOf (revokeInDb db c.id reason t0) ca,
      (strToInt? x.serial_number).isSome ∧ x.revocation_date.isSome := by
    intro x hx
    rcases List.mem_filter.1 hx with ⟨hx1, hx2⟩
    simp only [revokeInDb, List.mem_map] at hx1
    rcases hx1 with ⟨y, hy, hxy⟩
    by_cases hyc : y.id = c.id
    · have hyeq : y = c := hid y hy hyc
      subst hyeq
      rw [if_pos (by simp [hyc])] at hxy
      rw [← hxy]
      constructor
      · simp only [Certificate.revoke]
        simp [hs]
      · simp [Certificate.revoke]
    · rw [if_neg (by simp [hyc])] at hxy
      subst hxy
      rw [Bool.and_eq_true] at hx2
      exact hrev y hy hx2.2 (by simpa using hx2.1)
  have hsome := crlEntriesOf_isSome _ hall
  rcases Option.isSome_iff_exists.1 hsome with ⟨es, hes⟩
  refine ⟨⟨by simp [generate_crl, hes], ?_⟩, ?_⟩
  · intro res hgen
    simp only [generate_crl, hes] at hgen
    injection hgen with hgen2
    rw [← hgen2]
    exact crlEntriesOf_mem _ es hes _ hmemRev s t0
      (by simp only [Certificate.revoke]; simpa using hs)
      (by simp [Certificate.revoke])
  · intro res d hgen hin
    rcases hE : crlEntriesOf (revokedCertsOf db₀ ca) with _ | es₀
    · simp [generate_crl, hE] at hgen
    · simp only [generate_crl, hE] at hgen
      injection hgen with hgen2
      rw [← hgen2] at hin
      rcases crlEntriesOf_mem_rev _ es₀ hE s₀ d hin with ⟨c', hc', hps, _⟩
      rcases List.mem_filter.1 hc' with ⟨hc'mem, hc'pred⟩
      rw [Bool.and_eq_true] at hc'pred
      have hne : c' ≠ c₀ := by
        intro heq
        rw [heq, hnever] at hc'pred
        exact Bool.noConfusion hc'pred.2
      exact huniq c' hc'mem hne hps

/-- Witness for C5: revoking `alice`'s certificate in a concrete store and
regenerating the CRL puts serial 1000 in the CRL; over the un-revoked store
no CRL contains it. -/
theorem C5_witness :
    ((generate_crl sampleCA
        (revokeInDb ⟨[sampleCA], [aliceCertRow], []⟩ aliceCertRow.id
          "superseded" 5) 6 30).isSome ∧
     ∀ res, generate_crl sampleCA
        (revokeInDb ⟨[sampleCA], [aliceCertRow], []⟩ aliceCertRow.id
          "superseded" 5) 6 30 = some res →
        ((1000 : Int), (5 : Int)) ∈ res.1.entries) ∧
    (∀ res (d : Int), generate_crl sampleCA ⟨[sampleCA], [aliceCertRow], []⟩
        6 31 = some res → ((1000 : Int), d) ∉ res.1.entries) := by
  refine C5_crl_contains_exactly_revoked ⟨[sampleCA], [aliceCertRow], []⟩
    ⟨[sampleCA], [aliceCertRow], []⟩ sampleCA aliceCertRow aliceCertRow
    "superseded" 5 6 6 30 31 1000 1000 (by simp) (by decide)
    ?_ (by decide) ?_ (by simp) (by decide) (by decide) ?_
  · intro c' hc' _
    simpa using hc'
  · intro c' hc' hrv _
    have h1 : c' = aliceCertRow := by simpa using hc'
    rw [h1] at hrv
    exact absurd hrv (by decide)
  · intro c' hc' hne
    have h1 : c' = aliceCertRow := by simpa using hc'
    exact absurd h1 hne

/-- Counterexample to C6 as stated: the CRL built by the `update_crl`
management command (one of the paths that build a CRL) has its next-update
30 days — not 7 — after its this-update, already on the empty store at
time 0. -/
theorem C6_counterexample :
    ¬ ((updateCrlBuild sampleCA ⟨[sampleCA], [], []⟩ 0 0 0).nextUpdate =
       (updateCrlBuild sampleCA ⟨[sampleCA], [], []⟩ 0 0 0).lastUpdate + 7) := by
  decide

/-- **C6** (amended).  CRLs built by `CAManager.generate_crl` have
next-update = this-update + 7 days, both in the signed payload and in the
persisted snapshot row (whose stored payload is that same CRL), and the CRL
built by the `export_crl` command also uses 7 days; the `update_crl`
command, however, builds its CRL with next-update 30 days after (its second
reading of) the current time. -/
theorem C6_crl_next_update_windows (ca : CertificateAuthority) (db : PkiDb)
    (now now1 now2 nowF t : Int) (k : Nat) :
    (∀ res, generate_crl ca db now k = some res →
      res.1.nextUpdate = res.1.lastUpdate + 7 ∧
      res.2.1.next_update = res.2.1.this_update + 7 ∧
      res.2.1.crl_pem = res.1) ∧
    ((exportCrlBuild ca db t).nextUpdate
      = (exportCrlBuild ca db t).lastUpdate + 7) ∧
    ((updateCrlBuild ca db now1 now2 nowF).nextUpdate = now2 + 30 ∧
     (updateCrlBuild ca db now1 now2 nowF).lastUpdate = now1) := by
  refine ⟨?_, rfl, rfl, rfl⟩
  intro res hgen
  rcases hE : crlEntriesOf (revokedCertsOf db ca) with _ | es <;>
    simp only [generate_crl, hE] at hgen
  · exact Option.noConfusion hgen
  · injection hgen with h2
    rw [← h2]
    exact ⟨rfl, rfl, rfl⟩

/-- Witness for C6 (amended): over a concrete store, `generate_crl`
succeeds and its payload satisfies next-update = this-update + 7; the
`update_crl` command's payload at the same store shows the 30-day window. -/
theorem C6_witness :
    ∃ res, generate_crl sampleCA ⟨[sampleCA], [], []⟩ 0 40 = some res ∧
      res.1.nextUpdate = res.1.lastUpdate + 7 ∧
      (updateCrlBuild sampleCA ⟨[sampleCA], [], []⟩ 0 0 0).nextUpdate
        = 0 + 30 := by
  refine ⟨_, rfl, ?_, ?_⟩
  · exact ((C6_crl_next_update_windows sampleCA ⟨[sampleCA], [], []⟩ 0 0 0 0 0
      40).1 _ rfl).1
  · exact ((C6_crl_next_update_windows sampleCA ⟨[sampleCA], [], []⟩ 0 0 0 0 0
      40).2.2).1

/-- **C7.**  A session in MFA-setup reaches MFA-verified only through a
TOTP code matching the secret staged in that session within the time-skew
window.  For an authenticated principal submitting a (nonempty) code:
if no pending staged secret is in the session, the submission returns the
400 "no pending MFA setup" response and changes nothing — no secret is
persisted, no session key is written, no token issued; with a staged secret
`s`, the submission succeeds exactly when the code matches `s` within the
±1-step window, and then the secret is persisted to the principal record
(`otp_secret_key`, `mfa_level = 2`), the session is marked MFA-verified
with the principal's username, the pending secret is cleared and a bearer
token is issued; a non-matching code changes nothing. -/
theorem C7_mfa_setup_staged_secret
    (users : List User) (sess : Session) (u : User) (c : String)
    (step now : Int) (hcode : ¬ c = "") :
    (Session.get sess "pending_mfa_secret" = none →
      mfaSetupPost users sess (some u) (some c) step now
        = ⟨.noPendingSetup400, users, sess, none, false⟩) ∧
    (∀ s : String, ¬ s = "" →
      Session.get sess "pending_mfa_secret" = some (.s s) →
      ((mfaSetupPost users sess (some u) (some c) step now).outcome
          = .success u.id ↔ totpVerify s c step = true) ∧
      (totpVerify s c step = true →
        (mfaSetupPost users sess (some u) (some c) step now).users
          = users.map (fun v => if v.id == u.id then
              { v with otp_secret_key := some s, mfa_level := 2,
                       last_login := some now } else v) ∧
        Session.get (mfaSetupPost users sess (some u) (some c) step
            now).session "auth_mfa" = some (.i 1) ∧
        Session.get (mfaSetupPost users sess (some u) (some c) step
            now).session "auth_mfa_username" = some (.s u.username) ∧
        Session.get (mfaSetupPost users sess (some u) (some c) step
            now).session "pending_mfa_secret" = none ∧
        (mfaSetupPost users sess (some u) (some c) step now).tokenIssued
          = true) ∧
      (totpVerify s c step = false →
        mfaSetupPost users sess (some u) (some c) step now
          = ⟨.invalidCode400, users, sess, none, false⟩)) := by
  constructor
  · intro hpend
    simp only [mfaSetupPost, Option.getD_some, hpend]
    rw [if_neg hcode]
  · intro s hs hpend
    cases hv : totpVerify s c step with
    | false =>
      refine ⟨?_, ?_, ?_⟩
      · simp only [mfaSetupPost, Option.getD_some, hpend]
        rw [if_neg hcode, if_neg hs]
        simp [hv]
      · intro hvt
        exact Bool.noConfusion hvt
      · intro _
        simp only [mfaSetupPost, Option.getD_some, hpend]
        rw [if_neg hcode, if_neg hs]
        simp [hv]
    | true =>
      have hred : mfaSetupPost users sess (some u) (some c) step now =
          ⟨.success u.id,
           users.map (fun v => if v.id == u.id then
             { v with otp_secret_key := some s, mfa_level := 2,
                      last_login := some now } else v),
           (((((sess.set "auth_mfa" (.i 1)).set
             "auth_mfa_username" (.s u.username)).set
             "auth_mfa_time" (.i now)).set
             "auth_mfa_required" (.i 0)).set
             "auth_mfa_type" (.s "totp")).del "pending_mfa_secret",
           some u.id, true⟩ := by
        simp only [mfaSetupPost, Option.getD_some, hpend]
        rw [if_neg hcode, if_neg hs]
        simp [hv]
      refine ⟨by simp [hred], fun _ => ?_, fun hvf => ?_⟩
      · refine ⟨by simp [hred], ?_, ?_, ?_, by simp [hred]⟩
        · rw [hred]
          show Session.get _ "auth_mfa" = _
          rw [Session.get_del_ne _ _ _ (by decide),
            Session.get_set_ne _ _ _ _ (by decide),
            Session.get_set_ne _ _ _ _ (by decide),
            Session.get_set_ne _ _ _ _ (by decide),
            Session.get_set_ne _ _ _ _ (by decide),
            Session.get_set_self]
        · rw [hred]
          show Session.get _ "auth_mfa_username" = _
          rw [Session.get_del_ne _ _ _ (by decide),
            Session.get_set_ne _ _ _ _ (by decide),
            Session.get_set_ne _ _ _ _ (by decide),
            Session.get_set_ne _ _ _ _ (by decide),
            Session.get_set_self]
        · rw [hred]
          show Session.get _ "pending_mfa_secret" = _
          rw [Session.get_del_self]
      · exact Bool.noConfusion hvf

/-- Witness for C7: with a staged secret in the session, submitting the
matching TOTP code succeeds; with no staged secret, submission returns the
400 response and changes nothing. -/
theorem C7_witness :
    (mfaSetupPost [aliceUser] [("pending_mfa_secret", SessVal.s "SECRETK")]
        (some aliceUser) (some (totpAt "SECRETK" 5)) 5 9).outcome
      = .success aliceUser.id ∧
    mfaSetupPost [aliceUser] [] (some aliceUser)
        (some (totpAt "SECRETK" 5)) 5 9
      = ⟨.noPendingSetup400, [aliceUser], [], none, false⟩ := by
  have h1 := C7_mfa_setup_staged_secret [aliceUser]
    [("pending_mfa_secret", SessVal.s "SECRETK")] aliceUser
    (totpAt "SECRETK" 5) 5 9 (by decide)
  have h2 := C7_mfa_setup_staged_secret [aliceUser] [] aliceUser
    (totpAt "SECRETK" 5) 5 9 (by decide)
  constructor
  · exact ((h1.2 "SECRETK" (by decide) (by decide)).1).mpr (by decide)
  · exact h2.1 rfl

/-- A valid, unexpired `UserCertificate` held by `alice`. -/
def aliceUserCert : UserCertificate :=
  ⟨50, 10, 1, "1000", "CN=alice", 0, 365, "valid"⟩

/-- Counterexample to C9 as stated: at a concrete state in which `alice`
already holds a valid (status `valid`, unexpired) certificate, the API
issue operation does *not* create and return a new certificate — it
hard-blocks with the 400 "already has a valid certificate" response, and
the certificate table is unchanged. -/
theorem C9_counterexample :
    viewIssue true true [aliceUser] 1 "rsa" 2048 [aliceUserCert]
      ⟨[sampleCA], [], []⟩ 100
      = (.alreadyHasValid400 50, [aliceUserCert]) := by
  decide

/-- **C9** (amended).  The API issue endpoint *does* hard-block a second
concurrent certificate: whenever the target principal already holds a
certificate with status `valid` whose expiry lies after the current time,
the endpoint returns the 400 "already has a valid certificate" error and
creates nothing.  `CAManager.issue_user_certificate` itself imposes no such
precondition: against any store whatsoever it creates and returns a new
certificate bound to the principal — superseding an old certificate is a
separate explicit transition, not part of issuance. -/
theorem C9_api_issue_hard_blocks_manager_does_not
    (isSuper hasPerm : Bool) (users : List User) (uidParam : Nat)
    (target : User) (userCerts : List UserCertificate) (db : PkiDb)
    (now : Int) (e : UserCertificate)
    (hperm : (isSuper || hasPerm) = true)
    (huser : users.find? (fun u => u.id == uidParam) = some target)
    (hexist : userCerts.find? (fun c0 => c0.user_id == target.id &&
        c0.status == "valid" && decide (now < c0.not_valid_after))
      = some e) :
    viewIssue isSuper hasPerm users uidParam "rsa" 2048 userCerts db now
      = (.alreadyHasValid400 e.id, userCerts) ∧
    ∀ (ca : CertificateAuthority) (u2 : User) (days t : Int) (k : KeyId)
      (cid : Nat) (db2 : PkiDb),
      (issue_user_certificate ca u2 days t k cid db2).2.1.user_id
          = some u2.id ∧
      (issue_user_certificate ca u2 days t k cid db2).2.2.certs
          = db2.certs ++ [(issue_user_certificate ca u2 days t k cid
              db2).2.1] := by
  constructor
  · simp only [viewIssue, huser, hexist]
    rw [if_neg (by simp [hperm]), if_neg (by decide), if_neg (by decide)]
  · intro ca u2 days t k cid db2
    exact ⟨rfl, rfl⟩

/-- Witness for C9 (amended): the concrete blocked request, and a concrete
unconditional manager-level issuance. -/
theorem C9_witness :
    viewIssue true true [aliceUser] 1 "rsa" 2048 [aliceUserCert]
      ⟨[sampleCA], [], []⟩ 100
      = (.alreadyHasValid400 50, [aliceUserCert]) ∧
    (issue_user_certificate sampleCA aliceUser 365 0 101 20
        ⟨[sampleCA], [], []⟩).2.1.user_id = some aliceUser.id := by
  have h := C9_api_issue_hard_blocks_manager_does_not true true [aliceUser]
    1 aliceUser [aliceUserCert] ⟨[sampleCA], [], []⟩ 100 aliceUserCert
    (by decide) (by decide) (by decide)
  exact ⟨h.1, (h.2 sampleCA aliceUser 365 0 101 20 ⟨[sampleCA], [], []⟩).1⟩

/-- Witness for C10: an unauthenticated request to a protected path with
MFA flags set passes; an authenticated one is blocked with a 403. -/
theorem C10_witness :
    mfaRequiredProcessRequest "/api/v1/evidence/" false
        [("mfa_setup_required", .b true)] = none ∧
    (mfaRequiredProcessRequest "/api/v1/evidence/" true [] =
        some ⟨403, "MFA verification required"⟩ → True) := by
  have h := C10_mfa_gate_skips_unauthenticated "/api/v1/evidence/"
    [("mfa_setup_required", .b true)]
  refine ⟨h.1, fun _ => ?_⟩
  exact trivial

end PkiMtls
